import Mathlib

/-!
Verification development for the spotify-release-list repository.

The repository's data-synchronization engine (Fetch Client, Worker Pool,
Paginator, Sync Orchestrator, described in the developer documentation) is
not present under src/ — only its documentation is.  Those components are
therefore modelled from the specification text; each such definition carries
a doc comment starting with "Modelled from the spec:".  The TracksFilter
component (src/components/filters/TracksFilter.js) is present in source and
is embedded directly from the code.
-/

namespace SpotifyReleaseList

/-! ## JavaScript value model for the TracksFilter component -/

/-- JavaScript value as it flows through the TracksFilter component: the
filter fields hold `null`, `NaN` (a possible `parseInt` result) or a number. -/
inductive JSVal
  | null
  | nan
  | num (n : Int)
deriving DecidableEq, Repr

/-- JavaScript strict inequality (`!==`) on `JSVal`: `NaN !== NaN` is true;
otherwise values of the same shape compare structurally. -/
def jsStrictNe (a b : JSVal) : Bool :=
  match a, b with
  | JSVal.nan, _ => true
  | _, JSVal.nan => true
  | JSVal.null, JSVal.null => false
  | JSVal.num m, JSVal.num n => m != n
  | _, _ => true

/-- JavaScript truthiness of a `JSVal`: `null`, `NaN` and `0` are falsy. -/
def jsTruthy : JSVal → Bool
  | JSVal.null => false
  | JSVal.nan => false
  | JSVal.num n => n != 0

/-- JavaScript truthiness of a string: only the empty string is falsy. -/
def strTruthy (s : String) : Bool :=
  !s.isEmpty

/-- Numeric value of a run of decimal digit characters. -/
def digitsToNat (ds : List Char) : Nat :=
  ds.foldl (fun a c => a * 10 + (c.toNat - Char.toNat '0')) 0

/-- JavaScript `parseInt(s, 10)`: skip leading spaces, read an optional
sign, then a maximal run of decimal digits; no digits yields `NaN`. -/
def jsParseInt (s : String) : JSVal :=
  let cs := s.data.dropWhile (fun c => c = ' ')
  match cs with
  | '-' :: r =>
    let ds := r.takeWhile Char.isDigit
    if ds.isEmpty then JSVal.nan else JSVal.num (-(digitsToNat ds : Int))
  | '+' :: r =>
    let ds := r.takeWhile Char.isDigit
    if ds.isEmpty then JSVal.nan else JSVal.num (digitsToNat ds : Int)
  | r =>
    let ds := r.takeWhile Char.isDigit
    if ds.isEmpty then JSVal.nan else JSVal.num (digitsToNat ds : Int)

/-! ## TracksFilter component (src/components/filters/TracksFilter.js) -/

/-- Local component state of TracksFilter: the two input field values
(`minValue`, `maxValue` from `useState`). -/
structure TracksFilterLocal where
  minValue : String
  maxValue : String
deriving DecidableEq, Repr

/-- Store-side filter state selected by TracksFilter: `minTracks` and
`maxTracks` from the filters slice (`null` when cleared). -/
structure FilterStore where
  minTracks : JSVal
  maxTracks : JSVal
deriving DecidableEq, Repr

/-- Filter value computed from an input field in TracksFilter's effect:
the JS expression `minValue ? parseInt(minValue, 10) : null`. -/
def computedFilterValue (v : String) : JSVal :=
  if strTruthy v then jsParseInt v else JSVal.null

/-- First `useEffect` of TracksFilter: computes `min`/`max` from the local
input values and dispatches `setFilters` exactly when
`min !== minTracks || max !== maxTracks`; returns the dispatched filter
payload, or `none` when no dispatch happens. -/
def tracksEffectDispatch (loc : TracksFilterLocal) (store : FilterStore) :
    Option FilterStore :=
  let min := computedFilterValue loc.minValue
  let max := computedFilterValue loc.maxValue
  if jsStrictNe min store.minTracks || jsStrictNe max store.maxTracks then
    some ⟨min, max⟩
  else
    none

/-- TracksFilter's `reset` handler: sets both local input values to the
empty string and dispatches `setFilters` with both fields `null`.  The
result is the new local state paired with the dispatched payload. -/
def tracksFilterReset (_loc : TracksFilterLocal) :
    TracksFilterLocal × FilterStore :=
  (⟨"", ""⟩, ⟨JSVal.null, JSVal.null⟩)

/-- TracksFilter's `hasFilter` guard: the JS expression
`minTracks || maxTracks`, truthy when either store value is truthy. -/
def hasFilter (store : FilterStore) : Bool :=
  jsTruthy store.minTracks || jsTruthy store.maxTracks

/-- Rendering condition of the Reset button: `hasFilter && <Button …/>`. -/
def resetButtonRendered (store : FilterStore) : Bool :=
  hasFilter store

/-! ## Claims C9 and C10 -/

/-- C9: in TracksFilter, whenever an input field holds the empty string, the
value dispatched via setFilters for the corresponding filter field is `null`
(the filter is cleared), never `NaN`: `parseInt` is guarded away from the
empty string. -/
theorem tracksFilter_empty_field_dispatches_null
    (loc : TracksFilterLocal) (store : FilterStore) (f : FilterStore)
    (hd : tracksEffectDispatch loc store = some f) :
    (loc.minValue = "" → f.minTracks = JSVal.null ∧ f.minTracks ≠ JSVal.nan) ∧
    (loc.maxValue = "" → f.maxTracks = JSVal.null ∧ f.maxTracks ≠ JSVal.nan) := by
  unfold tracksEffectDispatch at hd
  by_cases hc :
      (jsStrictNe (computedFilterValue loc.minValue) store.minTracks
        || jsStrictNe (computedFilterValue loc.maxValue) store.maxTracks) = true
  · simp only [hc, if_pos] at hd
    injection hd with hf
    subst hf
    refine ⟨fun hmin => ?_, fun hmax => ?_⟩
    · rw [hmin]
      constructor
      · show computedFilterValue "" = JSVal.null
        decide
      · show computedFilterValue "" ≠ JSVal.nan
        decide
    · rw [hmax]
      constructor
      · show computedFilterValue "" = JSVal.null
        decide
      · show computedFilterValue "" ≠ JSVal.nan
        decide
  · simp only [hc, if_neg] at hd
    simp at hd

/-- Witness for C9: with an empty min field and a max field of "3", the
effect dispatches, and the dispatched minTracks is null. -/
theorem tracksFilter_empty_field_dispatches_null_witness :
    tracksEffectDispatch ⟨"", "3"⟩ ⟨JSVal.num 5, JSVal.null⟩ =
      some ⟨JSVal.null, JSVal.num 3⟩ ∧
    ((⟨"", "3"⟩ : TracksFilterLocal).minValue = "" →
      (⟨JSVal.null, JSVal.num 3⟩ : FilterStore).minTracks = JSVal.null ∧
      (⟨JSVal.null, JSVal.num 3⟩ : FilterStore).minTracks ≠ JSVal.nan) :=
  ⟨by decide,
    (tracksFilter_empty_field_dispatches_null ⟨"", "3"⟩ ⟨JSVal.num 5, JSVal.null⟩
      ⟨JSVal.null, JSVal.num 3⟩ (by decide)).1⟩

/-- C10: TracksFilter's reset, from any state, dispatches setFilters with
both fields null and clears both local inputs; and the Reset button is
rendered exactly when at least one store value is truthy. -/
theorem tracksFilter_reset_and_button
    (loc : TracksFilterLocal) (store : FilterStore) :
    tracksFilterReset loc = (⟨"", ""⟩, ⟨JSVal.null, JSVal.null⟩) ∧
    (resetButtonRendered store = true ↔
      (jsTruthy store.minTracks = true ∨ jsTruthy store.maxTracks = true)) := by
  constructor
  · rfl
  · simp [resetButtonRendered, hasFilter, Bool.or_eq_true]

/-! ## Rate-Limited Fetch Client (src/api.js is absent from src/) -/

/-- Modelled from the spec: the Response Outcome of the Fetch Client — a
tagged result, exactly one tag holds at a time
(`Success | RateLimited | TransientError | FatalError | Cancelled`). -/
inductive Outcome (α : Type)
  | success (payload : α)
  | rateLimited (retryAfterSeconds : Nat)
  | transientError (statusCode : Nat)
  | fatalError (statusCode : Nat) (message : String)
  | cancelled
deriving DecidableEq, Repr

/-- Modelled from the spec: an HTTP response seen by the Fetch Client —
its status code and the optional server-provided retry-after hint. -/
structure HttpResponse where
  status : Nat
  retryAfter : Option Nat
deriving DecidableEq, Repr

/-- Modelled from the spec: the Fetch Client's translation of HTTP-level
results into typed outcomes.  An expired credential is an unrecoverable
fatal error; 429 is the rate-limit signal; 5xx is transient; any other 4xx
is fatal; otherwise the request succeeded. -/
def classifyResponse (credExpired : Bool) (r : HttpResponse) : Outcome Unit :=
  if credExpired then Outcome.fatalError r.status "expired credential"
  else if r.status = 429 then Outcome.rateLimited (r.retryAfter.getD 1)
  else if 500 ≤ r.status then Outcome.transientError r.status
  else if 400 ≤ r.status then Outcome.fatalError r.status "client error"
  else Outcome.success ()

/-- Modelled from the spec: the retry loop of the Fetch Client, missing
src/api.js.  `exec n` is the outcome of attempt number `n`; rate-limit and
transient outcomes are retried (after a backoff irrelevant to the result)
while retries remain, and every other outcome — or an exhausted retry
budget — returns immediately.  The result is paired with the total number
of attempts performed. -/
def executeWithRetries {α : Type} (exec : Nat → Outcome α) :
    Nat → Nat → Outcome α × Nat
  | retriesLeft, attempt =>
    match exec attempt with
    | Outcome.transientError s =>
      match retriesLeft with
      | 0 => (Outcome.transientError s, attempt + 1)
      | r + 1 => executeWithRetries exec r (attempt + 1)
    | Outcome.rateLimited w =>
      match retriesLeft with
      | 0 => (Outcome.rateLimited w, attempt + 1)
      | r + 1 => executeWithRetries exec r (attempt + 1)
    | o => (o, attempt + 1)

/-- Modelled from the spec: `execute(descriptor) -> Outcome`, with the
retry count bounded by the configured `maxRetries`. -/
def execute {α : Type} (exec : Nat → Outcome α) (maxRetries : Nat) :
    Outcome α × Nat :=
  executeWithRetries exec maxRetries 0

theorem executeWithRetries_always_transient {α : Type} (exec : Nat → Outcome α)
    (h : ∀ n, ∃ s, exec n = Outcome.transientError s) :
    ∀ r a, (∃ s, (executeWithRetries exec r a).1 = Outcome.transientError s) ∧
      (executeWithRetries exec r a).2 = a + r + 1 := by
  intro r
  induction r with
  | zero =>
    intro a
    obtain ⟨s, hs⟩ := h a
    rw [executeWithRetries, hs]
    exact ⟨⟨s, rfl⟩, rfl⟩
  | succ r ih =>
    intro a
    obtain ⟨s, hs⟩ := h a
    rw [executeWithRetries, hs]
    show (∃ s, (executeWithRetries exec r (a + 1)).1 = Outcome.transientError s) ∧
      (executeWithRetries exec r (a + 1)).2 = a + (r + 1) + 1
    exact ⟨(ih (a + 1)).1, by have h2 := (ih (a + 1)).2; omega⟩

/-! ## Claims C2 and C6 -/

/-- C2: a request whose every attempt yields TransientError performs exactly
`maxRetries + 1` total attempts and then escalates the transient failure to
the caller. -/
theorem fetch_retry_bound {α : Type} (exec : Nat → Outcome α) (maxRetries : Nat)
    (h : ∀ n, ∃ s, exec n = Outcome.transientError s) :
    (execute exec maxRetries).2 = maxRetries + 1 ∧
    ∃ s, (execute exec maxRetries).1 = Outcome.transientError s := by
  have := executeWithRetries_always_transient exec h maxRetries 0
  exact ⟨by simpa [execute] using this.2, this.1⟩

/-- Witness for C2: a request that always answers 503 with maxRetries = 2
makes exactly 3 attempts and escalates the TransientError. -/
theorem fetch_retry_bound_witness :
    (execute (fun _ => Outcome.transientError (α := Unit) 503) 2).2 = 2 + 1 ∧
    ∃ s, (execute (fun _ => Outcome.transientError (α := Unit) 503) 2).1 =
      Outcome.transientError s :=
  fetch_retry_bound (fun _ => Outcome.transientError 503) 2
    (fun _ => ⟨503, rfl⟩)

/-- C6: a response with a non-retryable 4xx status (any 4xx other than the
429 rate-limit signal), or one observed under an expired credential, is
surfaced as FatalError after exactly one attempt — zero retries. -/
theorem fetch_fatal_no_retry (credExpired : Bool) (responses : Nat → HttpResponse)
    (maxRetries : Nat)
    (h : credExpired = true ∨
      (400 ≤ (responses 0).status ∧ (responses 0).status < 500 ∧
        (responses 0).status ≠ 429)) :
    ∃ s m,
      execute (fun n => classifyResponse credExpired (responses n)) maxRetries =
        (Outcome.fatalError s m, 1) := by
  have hc : ∃ s m,
      classifyResponse credExpired (responses 0) = Outcome.fatalError s m := by
    cases hcred : credExpired with
    | true =>
      exact ⟨(responses 0).status, "expired credential", by
        simp [classifyResponse]⟩
    | false =>
      rw [hcred] at h
      rcases h with hcontra | ⟨h4, h5, h429⟩
      · simp at hcontra
      · refine ⟨(responses 0).status, "client error", ?_⟩
        have hn5 : ¬ 500 ≤ (responses 0).status := by omega
        simp [classifyResponse, h429, hn5, h4]
  obtain ⟨s, m, hcm⟩ := hc
  refine ⟨s, m, ?_⟩
  unfold execute
  rw [executeWithRetries]
  simp only [hcm]

/-- Witness for C6: a 403 response with a fresh credential and maxRetries = 5
yields a FatalError outcome after exactly one attempt. -/
theorem fetch_fatal_no_retry_witness :
    (false = true ∨
      (400 ≤ (({ status := 403, retryAfter := none } : HttpResponse)).status ∧
        (({ status := 403, retryAfter := none } : HttpResponse)).status < 500 ∧
        (({ status := 403, retryAfter := none } : HttpResponse)).status ≠ 429)) ∧
    ∃ s m,
      execute (fun n =>
        classifyResponse false ((fun _ => ({ status := 403, retryAfter := none } :
          HttpResponse)) n)) 5 = (Outcome.fatalError s m, 1) :=
  ⟨Or.inr (by decide),
    fetch_fatal_no_retry false (fun _ => { status := 403, retryAfter := none }) 5
      (Or.inr (by decide))⟩

/-! ## Album Records and last-write-wins aggregation -/

/-- Modelled from the spec: the origin flags of an Artist Record — followed
directly, derived from saved tracks, or derived from saved albums. -/
inductive ArtistOrigin
  | followed
  | savedTracks
  | savedAlbums
deriving DecidableEq, Repr

/-- Modelled from the spec: an Artist Record {id (unique, stable), name,
origin flags}. -/
structure ArtistRecord where
  id : String
  name : String
  origin : ArtistOrigin
deriving DecidableEq, Repr

/-- Modelled from the spec: the albumGroup of an Album Record
(album/single/compilation/appearsOn). -/
inductive AlbumGroup
  | album
  | single
  | compilation
  | appearsOn
deriving DecidableEq, Repr

/-- Modelled from the spec: an Album Record {id, artistId (foreign key into
Artist Record), releaseDate, albumGroup}; the lazily-fetched extra metadata
(label, popularity) plays no role in the claims and is omitted. -/
structure AlbumRecord where
  id : String
  artistId : String
  releaseDate : String
  albumGroup : AlbumGroup
deriving DecidableEq, Repr

/-- Modelled from the spec: one aggregation step of a set of Album Records
keyed by id — a newly observed record replaces any earlier record with the
same id (last-write-wins). -/
def dedupeStep (acc : List AlbumRecord) (r : AlbumRecord) : List AlbumRecord :=
  acc.filter (fun x => x.id ≠ r.id) ++ [r]

/-- Modelled from the spec: the Aggregating phase deduplicates Album
Records by id, last write wins, over the records in
submission-completion order. -/
def dedupeLastWins (records : List AlbumRecord) : List AlbumRecord :=
  records.foldl dedupeStep []

/-- Last record with a given id in observation order, `none` when the id
never occurs. -/
def lookupLast (records : List AlbumRecord) (i : String) : Option AlbumRecord :=
  records.foldl (fun acc r => if r.id = i then some r else acc) none

theorem filter_dedupeStep (acc : List AlbumRecord) (r : AlbumRecord) (i : String) :
    (dedupeStep acc r).filter (fun x => x.id = i) =
      if r.id = i then [r] else acc.filter (fun x => x.id = i) := by
  unfold dedupeStep
  rw [List.filter_append]
  by_cases h : r.id = i
  · subst h
    simp [List.filter_filter]
  · rw [if_neg h]
    have h1 : List.filter (fun x => decide (x.id = i)) [r] = [] := by
      simp [h]
    rw [h1, List.append_nil, List.filter_filter]
    apply List.filter_congr
    intro x _
    by_cases hx : x.id = i
    · subst hx
      have hne : x.id ≠ r.id := fun hc => h hc.symm
      simp [hne]
    · simp [hx]

theorem foldl_dedupe_filter (l : List AlbumRecord) (i : String) :
    ∀ acc, (l.foldl dedupeStep acc).filter (fun x => x.id = i) =
      l.foldl (fun cur r => if r.id = i then [r] else cur)
        (acc.filter (fun x => x.id = i)) := by
  induction l with
  | nil => intro acc; rfl
  | cons r l ih =>
    intro acc
    rw [List.foldl_cons, List.foldl_cons, ih (dedupeStep acc r), filter_dedupeStep]

theorem foldl_lookup_toList (l : List AlbumRecord) (i : String) :
    ∀ o : Option AlbumRecord,
      (l.foldl (fun acc r => if r.id = i then some r else acc) o).toList =
        l.foldl (fun cur r => if r.id = i then [r] else cur) o.toList := by
  induction l with
  | nil => intro o; rfl
  | cons r l ih =>
    intro o
    rw [List.foldl_cons, List.foldl_cons, ih]
    by_cases h : r.id = i
    · rw [if_pos h, if_pos h]
      rfl
    · rw [if_neg h, if_neg h]

theorem lookup_aux_none (l : List AlbumRecord) (i : String)
    (h : ∀ x ∈ l, x.id ≠ i) :
    ∀ o, l.foldl (fun acc r => if r.id = i then some r else acc) o = o := by
  induction l with
  | nil => intro o; rfl
  | cons r l ih =>
    intro o
    rw [List.foldl_cons, if_neg (h r (List.mem_cons_self r l))]
    exact ih (fun x hx => h x (List.mem_cons_of_mem r hx)) o

theorem lookup_aux_some (l : List AlbumRecord) (i : String) :
    ∀ o, (∃ x ∈ l, x.id = i) →
      ∃ r pre post, l.foldl (fun acc r => if r.id = i then some r else acc) o =
          some r ∧
        l = pre ++ r :: post ∧ r.id = i ∧ ∀ x ∈ post, x.id ≠ i := by
  induction l with
  | nil =>
    intro o h
    obtain ⟨x, hx, _⟩ := h
    exact absurd hx (List.not_mem_nil x)
  | cons a l ih =>
    intro o h
    by_cases hl : ∃ x ∈ l, x.id = i
    · obtain ⟨r, pre, post, h1, h2, h3, h4⟩ :=
        ih (if a.id = i then some a else o) hl
      exact ⟨r, a :: pre, post, by rw [List.foldl_cons]; exact h1,
        by rw [h2]; rfl, h3, h4⟩
    · have hai : a.id = i := by
        obtain ⟨x, hx, hxi⟩ := h
        rcases List.mem_cons.mp hx with heq | hmem
        · exact heq ▸ hxi
        · exact absurd ⟨x, hmem, hxi⟩ hl
      refine ⟨a, [], l, ?_, rfl, hai, fun x hx hxi => hl ⟨x, hx, hxi⟩⟩
      rw [List.foldl_cons, if_pos hai]
      exact lookup_aux_none l i (fun x hx hxi => hl ⟨x, hx, hxi⟩) (some a)

/-! ## Claim C1 -/

/-- C1: whenever some Album Record in the observed stream carries id `i`
(in particular when two records across pages or streams share that id), the
aggregated snapshot's album set contains exactly one record with id `i`,
and it is the last record with that id in submission-completion order. -/
theorem snapshot_last_write_wins (records : List AlbumRecord) (i : String)
    (h : ∃ x ∈ records, x.id = i) :
    ∃ r pre post,
      lookupLast records i = some r ∧
      (dedupeLastWins records).filter (fun x => x.id = i) = [r] ∧
      records = pre ++ r :: post ∧ r.id = i ∧ ∀ x ∈ post, x.id ≠ i := by
  obtain ⟨r, pre, post, h1, h2, h3, h4⟩ := lookup_aux_some records i none h
  refine ⟨r, pre, post, h1, ?_, h2, h3, h4⟩
  have hf := foldl_dedupe_filter records i []
  have hsome : lookupLast records i = some r := h1
  have htl : (lookupLast records i).toList = [r] := by rw [hsome]; rfl
  rw [dedupeLastWins, hf]
  refine Eq.trans ?_ htl
  exact (foldl_lookup_toList records i none).symm

/-- Witness for C1: two records sharing id "a" across two pages collapse to
the later one. -/
theorem snapshot_last_write_wins_witness :
    (∃ x ∈ [(⟨"a", "ar1", "2020", AlbumGroup.album⟩ : AlbumRecord),
        ⟨"a", "ar2", "2021", AlbumGroup.single⟩], x.id = "a") ∧
    ∃ r pre post,
      lookupLast [(⟨"a", "ar1", "2020", AlbumGroup.album⟩ : AlbumRecord),
        ⟨"a", "ar2", "2021", AlbumGroup.single⟩] "a" = some r ∧
      (dedupeLastWins [(⟨"a", "ar1", "2020", AlbumGroup.album⟩ : AlbumRecord),
        ⟨"a", "ar2", "2021", AlbumGroup.single⟩]).filter
          (fun x => x.id = "a") = [r] ∧
      [(⟨"a", "ar1", "2020", AlbumGroup.album⟩ : AlbumRecord),
        ⟨"a", "ar2", "2021", AlbumGroup.single⟩] = pre ++ r :: post ∧
      r.id = "a" ∧ ∀ x ∈ post, x.id ≠ "a" :=
  ⟨by decide,
    snapshot_last_write_wins
      [⟨"a", "ar1", "2020", AlbumGroup.album⟩,
        ⟨"a", "ar2", "2021", AlbumGroup.single⟩] "a" (by decide)⟩

/-! ## Sync Orchestrator (src/sagas/sync.js is absent from src/) -/

/-- Modelled from the spec: a per-artist failure entry in the snapshot's
failure list, recording which artist failed and how. -/
structure SyncFailure where
  artistId : String
  status : Nat
  message : String
deriving DecidableEq, Repr

/-- Modelled from the spec: the Sync Snapshot — the set of Artist Records,
the set of Album Records keyed by id, a timestamp, and the list of
per-artist failures encountered. -/
structure SyncSnapshot where
  artists : List ArtistRecord
  albums : List AlbumRecord
  timestamp : Nat
  failures : List SyncFailure
deriving DecidableEq, Repr

/-- Modelled from the spec: the terminal event of a sync pass —
`Completed(snapshot) | Failed(reason) | Cancelled`, exactly one of the
three. -/
inductive TerminalEvent
  | completed (snapshot : SyncSnapshot)
  | failed (reason : String)
  | cancelled
deriving DecidableEq, Repr

/-- Snapshot visible to consumers of a terminal event: only a completed
pass delivers one; Failed and Cancelled deliver none. -/
def deliveredSnapshot : TerminalEvent → Option SyncSnapshot
  | TerminalEvent.completed s => some s
  | TerminalEvent.failed _ => none
  | TerminalEvent.cancelled => none

/-- Modelled from the spec: raw album data of one release as fetched for a
particular artist, before the artistId foreign key is attached. -/
structure AlbumData where
  id : String
  releaseDate : String
  albumGroup : AlbumGroup
deriving DecidableEq, Repr

/-- Modelled from the spec: the outcome of fetching one artist's releases
through the pooled pagination — success with the albums, a fatal per-artist
failure, or an unrecoverable expired-credential failure. -/
inductive ReleaseFetch
  | ok (albums : List AlbumData)
  | fatal (status : Nat) (message : String)
  | authExpired
deriving DecidableEq, Repr

/-- Modelled from the spec: the FetchingReleases and Aggregating phases of
the Sync Orchestrator, missing src/sagas/sync.js.  Artists are processed in
turn: a successful fetch contributes that artist's albums with the artistId
foreign key attached, a fatal per-artist failure is recorded in the failure
list without aborting the pass, and an expired credential fails the whole
pass immediately.  At the end the pass fails if the failure rate exceeds
the configured threshold — the fraction `thresholdNum / thresholdDen` in
[0,1] — and otherwise aggregates the immutable snapshot with
last-write-wins deduplication by album id. -/
def runSyncGo (now : Nat) (fetch : ArtistRecord → ReleaseFetch)
    (thresholdNum thresholdDen : Nat) (artistsAll : List ArtistRecord) :
    List ArtistRecord → List AlbumRecord → List SyncFailure → TerminalEvent
  | [], albums, failures =>
    if thresholdNum * artistsAll.length < failures.length * thresholdDen then
      TerminalEvent.failed "failure threshold exceeded"
    else
      TerminalEvent.completed ⟨artistsAll, dedupeLastWins albums, now, failures⟩
  | a :: rest, albums, failures =>
    match fetch a with
    | ReleaseFetch.ok data =>
      runSyncGo now fetch thresholdNum thresholdDen artistsAll rest
        (albums ++ data.map (fun d => ⟨d.id, a.id, d.releaseDate, d.albumGroup⟩))
        failures
    | ReleaseFetch.fatal st msg =>
      runSyncGo now fetch thresholdNum thresholdDen artistsAll rest albums
        (failures ++ [⟨a.id, st, msg⟩])
    | ReleaseFetch.authExpired => TerminalEvent.failed "expired credential"

/-- Modelled from the spec: one sync pass over the discovered artist set.
A cancellation request aborts the pass with a Cancelled terminal event and
the in-progress aggregate discarded; otherwise the pass runs to a terminal
event. -/
def runSync (cancelRequested : Bool) (now : Nat) (artists : List ArtistRecord)
    (fetch : ArtistRecord → ReleaseFetch) (thresholdNum thresholdDen : Nat) :
    TerminalEvent :=
  if cancelRequested then TerminalEvent.cancelled
  else runSyncGo now fetch thresholdNum thresholdDen artists artists [] []

theorem mem_dedupeStep (acc : List AlbumRecord) (r x : AlbumRecord)
    (h : x ∈ dedupeStep acc r) : x ∈ acc ∨ x = r := by
  unfold dedupeStep at h
  rcases List.mem_append.mp h with hf | hr
  · exact Or.inl (List.mem_of_mem_filter hf)
  · exact Or.inr (List.mem_singleton.mp hr)

theorem mem_foldl_dedupe (l : List AlbumRecord) :
    ∀ acc x, x ∈ l.foldl dedupeStep acc → x ∈ acc ∨ x ∈ l := by
  induction l with
  | nil => intro acc x h; exact Or.inl h
  | cons r l ih =>
    intro acc x h
    rcases ih (dedupeStep acc r) x h with hacc | hl
    · rcases mem_dedupeStep acc r x hacc with h1 | h1
      · exact Or.inl h1
      · exact Or.inr (h1 ▸ List.mem_cons_self r l)
    · exact Or.inr (List.mem_cons_of_mem r hl)

theorem pairwise_dedupeStep (acc : List AlbumRecord) (r : AlbumRecord)
    (h : acc.Pairwise (fun x y => x.id ≠ y.id)) :
    (dedupeStep acc r).Pairwise (fun x y => x.id ≠ y.id) := by
  unfold dedupeStep
  rw [List.pairwise_append]
  refine ⟨List.Pairwise.sublist (List.filter_sublist acc) h,
    List.pairwise_singleton _ r, ?_⟩
  intro x hx y hy
  rw [List.mem_singleton.mp hy]
  have := List.of_mem_filter hx
  simpa using this

theorem pairwise_foldl_dedupe (l : List AlbumRecord) :
    ∀ acc, acc.Pairwise (fun x y => x.id ≠ y.id) →
      (l.foldl dedupeStep acc).Pairwise (fun x y => x.id ≠ y.id) := by
  induction l with
  | nil => intro acc h; exact h
  | cons r l ih =>
    intro acc h
    exact ih (dedupeStep acc r) (pairwise_dedupeStep acc r h)

theorem runSyncGo_completed_invariants (now : Nat)
    (fetch : ArtistRecord → ReleaseFetch) (thresholdNum thresholdDen : Nat)
    (artistsAll : List ArtistRecord) :
    ∀ (remaining : List ArtistRecord) (albums : List AlbumRecord)
      (failures : List SyncFailure) (snap : SyncSnapshot),
      (∀ x ∈ albums, ∃ a ∈ artistsAll, a.id = x.artistId) →
      (∀ a ∈ remaining, a ∈ artistsAll) →
      runSyncGo now fetch thresholdNum thresholdDen artistsAll remaining albums
          failures =
        TerminalEvent.completed snap →
      snap.artists = artistsAll ∧
      snap.albums.Pairwise (fun x y => x.id ≠ y.id) ∧
      ∀ x ∈ snap.albums, ∃ a ∈ snap.artists, a.id = x.artistId := by
  intro remaining
  induction remaining with
  | nil =>
    intro albums failures snap halb _ hrun
    simp only [runSyncGo] at hrun
    by_cases hth :
        thresholdNum * artistsAll.length < failures.length * thresholdDen
    · rw [if_pos hth] at hrun
      cases hrun
    · rw [if_neg hth] at hrun
      injection hrun with hsnap
      subst hsnap
      refine ⟨rfl, pairwise_foldl_dedupe albums [] (List.Pairwise.nil), ?_⟩
      intro x hx
      rcases mem_foldl_dedupe albums [] x hx with h0 | hmem
      · exact absurd h0 (List.not_mem_nil x)
      · exact halb x hmem
  | cons a rest ih =>
    intro albums failures snap halb hrem hrun
    simp only [runSyncGo] at hrun
    cases hfa : fetch a with
    | ok data =>
      rw [hfa] at hrun
      refine ih (albums ++ data.map
          (fun d => ⟨d.id, a.id, d.releaseDate, d.albumGroup⟩)) failures snap
        ?_ (fun b hb => hrem b (List.mem_cons_of_mem a hb)) hrun
      intro x hx
      rcases List.mem_append.mp hx with h1 | h1
      · exact halb x h1
      · obtain ⟨d, _, hd⟩ := List.mem_map.mp h1
        exact ⟨a, hrem a (List.mem_cons_self a rest), by rw [← hd]⟩
    | fatal st msg =>
      rw [hfa] at hrun
      exact ih albums (failures ++ [⟨a.id, st, msg⟩]) snap halb
        (fun b hb => hrem b (List.mem_cons_of_mem a hb)) hrun
    | authExpired =>
      rw [hfa] at hrun
      cases hrun

/-! ## Claim C4 -/

/-- C4: every snapshot delivered to consumers by a sync pass has globally
unique Album Record ids, every Album Record's artistId references an Artist
Record present in the same snapshot, and a snapshot is delivered only by
the atomic Completed terminal event at the end of the pass — never
partially. -/
theorem snapshot_invariants (cancelRequested : Bool) (now : Nat)
    (artists : List ArtistRecord) (fetch : ArtistRecord → ReleaseFetch)
    (thresholdNum thresholdDen : Nat) (snap : SyncSnapshot)
    (h : deliveredSnapshot
        (runSync cancelRequested now artists fetch thresholdNum thresholdDen) =
      some snap) :
    runSync cancelRequested now artists fetch thresholdNum thresholdDen =
      TerminalEvent.completed snap ∧
    snap.albums.Pairwise (fun x y => x.id ≠ y.id) ∧
    ∀ x ∈ snap.albums, ∃ a ∈ snap.artists, a.id = x.artistId := by
  cases hev : runSync cancelRequested now artists fetch thresholdNum thresholdDen with
  | completed s =>
    rw [hev] at h
    simp only [deliveredSnapshot] at h
    injection h with h
    subst h
    refine ⟨rfl, ?_⟩
    unfold runSync at hev
    cases hcr : cancelRequested with
    | true => rw [hcr] at hev; rw [if_pos rfl] at hev; cases hev
    | false =>
      rw [hcr] at hev
      rw [if_neg (by simp)] at hev
      have := runSyncGo_completed_invariants now fetch thresholdNum thresholdDen
        artists artists [] [] s (fun x hx => absurd hx (List.not_mem_nil x))
        (fun a ha => ha) hev
      exact ⟨this.2.1, this.2.2⟩
  | failed reason =>
    rw [hev] at h
    simp only [deliveredSnapshot] at h
    cases h
  | cancelled =>
    rw [hev] at h
    simp only [deliveredSnapshot] at h
    cases h

/-- Witness for C4: a one-artist pass with one album delivers a snapshot,
and the theorem applies to it. -/
theorem snapshot_invariants_witness :
    deliveredSnapshot (runSync false 7 [⟨"A", "a", ArtistOrigin.followed⟩]
      (fun _ => ReleaseFetch.ok [⟨"al1", "2020", AlbumGroup.album⟩]) 1 2) =
      some ⟨[⟨"A", "a", ArtistOrigin.followed⟩],
        [⟨"al1", "A", "2020", AlbumGroup.album⟩], 7, []⟩ ∧
    runSync false 7 [⟨"A", "a", ArtistOrigin.followed⟩]
      (fun _ => ReleaseFetch.ok [⟨"al1", "2020", AlbumGroup.album⟩]) 1 2 =
      TerminalEvent.completed ⟨[⟨"A", "a", ArtistOrigin.followed⟩],
        [⟨"al1", "A", "2020", AlbumGroup.album⟩], 7, []⟩ ∧
    List.Pairwise (fun x y => x.id ≠ y.id)
      ([⟨"al1", "A", "2020", AlbumGroup.album⟩] : List AlbumRecord) ∧
    ∀ x ∈ ([⟨"al1", "A", "2020", AlbumGroup.album⟩] : List AlbumRecord),
      ∃ a ∈ ([⟨"A", "a", ArtistOrigin.followed⟩] : List ArtistRecord),
        a.id = x.artistId :=
  ⟨by decide,
    snapshot_invariants false 7 [⟨"A", "a", ArtistOrigin.followed⟩]
      (fun _ => ReleaseFetch.ok [⟨"al1", "2020", AlbumGroup.album⟩]) 1 2
      ⟨[⟨"A", "a", ArtistOrigin.followed⟩],
        [⟨"al1", "A", "2020", AlbumGroup.album⟩], 7, []⟩ (by decide)⟩

theorem runSyncGo_authExpired_failed (now : Nat)
    (fetch : ArtistRecord → ReleaseFetch) (thresholdNum thresholdDen : Nat)
    (artistsAll : List ArtistRecord) :
    ∀ (remaining : List ArtistRecord) (albums : List AlbumRecord)
      (failures : List SyncFailure),
      (∃ a ∈ remaining, fetch a = ReleaseFetch.authExpired) →
      ∃ m, runSyncGo now fetch thresholdNum thresholdDen artistsAll remaining
        albums failures = TerminalEvent.failed m := by
  intro remaining
  induction remaining with
  | nil =>
    intro albums failures h
    obtain ⟨a, ha, _⟩ := h
    exact absurd ha (List.not_mem_nil a)
  | cons a rest ih =>
    intro albums failures h
    cases hfa : fetch a with
    | ok data =>
      have hrest : ∃ b ∈ rest, fetch b = ReleaseFetch.authExpired := by
        obtain ⟨b, hb, hbe⟩ := h
        rcases List.mem_cons.mp hb with heq | hmem
        · rw [heq, hfa] at hbe; cases hbe
        · exact ⟨b, hmem, hbe⟩
      obtain ⟨m, hm⟩ := ih (albums ++ data.map
        (fun d => ⟨d.id, a.id, d.releaseDate, d.albumGroup⟩)) failures hrest
      exact ⟨m, by simp only [runSyncGo, hfa]; exact hm⟩
    | fatal st msg =>
      have hrest : ∃ b ∈ rest, fetch b = ReleaseFetch.authExpired := by
        obtain ⟨b, hb, hbe⟩ := h
        rcases List.mem_cons.mp hb with heq | hmem
        · rw [heq, hfa] at hbe; cases hbe
        · exact ⟨b, hmem, hbe⟩
      obtain ⟨m, hm⟩ := ih albums (failures ++ [⟨a.id, st, msg⟩]) hrest
      exact ⟨m, by simp only [runSyncGo, hfa]; exact hm⟩
    | authExpired =>
      exact ⟨"expired credential", by simp only [runSyncGo, hfa]⟩

/-! ## Claim C5 -/

/-- C5: a credential expiring mid-pass yields an immediate Failed terminal
event with no snapshot delivered; and in general the terminal outcome of a
pass is exactly one of a delivered full snapshot, Failed with nothing
delivered, or Cancelled with nothing delivered — never a partial snapshot
presented as complete. -/
theorem failed_or_cancelled_delivers_nothing (cancelRequested : Bool)
    (now : Nat) (artists : List ArtistRecord)
    (fetch : ArtistRecord → ReleaseFetch) (thresholdNum thresholdDen : Nat)
    (hauth : ∃ a ∈ artists, fetch a = ReleaseFetch.authExpired)
    (hc : cancelRequested = false) :
    (∃ m, runSync cancelRequested now artists fetch thresholdNum thresholdDen =
      TerminalEvent.failed m) ∧
    deliveredSnapshot
      (runSync cancelRequested now artists fetch thresholdNum thresholdDen) =
      none ∧
    ∀ (cr : Bool) (n : Nat) (ar : List ArtistRecord)
      (f : ArtistRecord → ReleaseFetch) (tn td : Nat),
      (∃ s, runSync cr n ar f tn td = TerminalEvent.completed s ∧
        deliveredSnapshot (runSync cr n ar f tn td) = some s) ∨
      ((∃ m, runSync cr n ar f tn td = TerminalEvent.failed m) ∧
        deliveredSnapshot (runSync cr n ar f tn td) = none) ∨
      (runSync cr n ar f tn td = TerminalEvent.cancelled ∧
        deliveredSnapshot (runSync cr n ar f tn td) = none) := by
  subst hc
  have hgo := runSyncGo_authExpired_failed now fetch thresholdNum thresholdDen
    artists artists [] [] hauth
  obtain ⟨m, hm⟩ := hgo
  have hrun : runSync false now artists fetch thresholdNum thresholdDen =
      TerminalEvent.failed m := by
    unfold runSync
    rw [if_neg (by simp)]
    exact hm
  refine ⟨⟨m, hrun⟩, by rw [hrun]; rfl, ?_⟩
  intro cr n ar f tn td
  cases hev : runSync cr n ar f tn td with
  | completed s => exact Or.inl ⟨s, rfl, rfl⟩
  | failed r => exact Or.inr (Or.inl ⟨⟨r, rfl⟩, rfl⟩)
  | cancelled => exact Or.inr (Or.inr ⟨rfl, rfl⟩)

/-- Witness for C5: a pass whose single artist hits an expired credential
fails immediately and delivers nothing. -/
theorem failed_or_cancelled_delivers_nothing_witness :
    ((∃ a ∈ ([⟨"A", "a", ArtistOrigin.followed⟩] : List ArtistRecord),
        (fun _ => ReleaseFetch.authExpired) a = ReleaseFetch.authExpired) ∧
      false = false) ∧
    (∃ m, runSync false 3 [⟨"A", "a", ArtistOrigin.followed⟩]
        (fun _ => ReleaseFetch.authExpired) 1 2 = TerminalEvent.failed m) ∧
    deliveredSnapshot (runSync false 3 [⟨"A", "a", ArtistOrigin.followed⟩]
      (fun _ => ReleaseFetch.authExpired) 1 2) = none :=
  ⟨⟨⟨⟨"A", "a", ArtistOrigin.followed⟩, List.mem_singleton.mpr rfl, rfl⟩, rfl⟩,
    ⟨(failed_or_cancelled_delivers_nothing false 3
        [⟨"A", "a", ArtistOrigin.followed⟩] (fun _ => ReleaseFetch.authExpired)
        1 2 ⟨⟨"A", "a", ArtistOrigin.followed⟩, List.mem_singleton.mpr rfl, rfl⟩
        rfl).1,
      (failed_or_cancelled_delivers_nothing false 3
        [⟨"A", "a", ArtistOrigin.followed⟩] (fun _ => ReleaseFetch.authExpired)
        1 2 ⟨⟨"A", "a", ArtistOrigin.followed⟩, List.mem_singleton.mpr rfl, rfl⟩
        rfl).2.1⟩⟩

/-! ## Claim C8 -/

/-- Artist A of the partial-failure scenario. -/
def artistA : ArtistRecord := ⟨"A", "Artist A", ArtistOrigin.followed⟩

/-- Artist B of the partial-failure scenario. -/
def artistB : ArtistRecord := ⟨"B", "Artist B", ArtistOrigin.followed⟩

/-- Artist C of the partial-failure scenario. -/
def artistC : ArtistRecord := ⟨"C", "Artist C", ArtistOrigin.followed⟩

/-- Release fetches of the partial-failure scenario: artist B's release
fetch returns FatalError(403), artists A and C succeed with one album
each. -/
def scenarioFetch : ArtistRecord → ReleaseFetch := fun a =>
  if a.id = "B" then ReleaseFetch.fatal 403 "forbidden"
  else if a.id = "A" then ReleaseFetch.ok [⟨"a1", "2020-01-01", AlbumGroup.album⟩]
  else ReleaseFetch.ok [⟨"c1", "2020-02-02", AlbumGroup.single⟩]

/-- C8: with 3 artists, failureThreshold 1/2, artist B failing fatally with
403 and artists A and C succeeding, the pass completes (1/3 does not exceed
the threshold) with a snapshot holding A's and C's albums and exactly one
failure entry recording B. -/
theorem scenario_partial_failure_tolerated :
    runSync false 100 [artistA, artistB, artistC] scenarioFetch 1 2 =
      TerminalEvent.completed ⟨[artistA, artistB, artistC],
        [⟨"a1", "A", "2020-01-01", AlbumGroup.album⟩,
          ⟨"c1", "C", "2020-02-02", AlbumGroup.single⟩],
        100, [⟨"B", 403, "forbidden"⟩]⟩ := by
  decide

/-! ## Worker Pool (src/sagas/request.js is absent from src/) -/

/-- Modelled from the spec: the mutable shared state of the Worker Pool —
the FIFO pending-request queue, the descriptors currently held by workers,
the descriptors already served to the results queue in completion order,
the running count of network calls issued, and the cooperative cancellation
flag.  Request Descriptors are identified by number. -/
structure PoolState where
  pending : List Nat
  inFlight : List Nat
  served : List Nat
  fetchCount : Nat
  cancelled : Bool
deriving DecidableEq, Repr

/-- Modelled from the spec: one scheduling step of a Worker Pool of size
`size`, missing src/sagas/request.js.  A worker dequeues the head of the
pending queue (issuing its network call) only when the pool is not
cancelled and fewer than `size` descriptors are in flight — the queue
discipline itself is the synchronization, so a dequeued descriptor is
removed and can never be served twice.  A worker may complete any
in-flight descriptor, pushing exactly one outcome onto the results queue.
Cancellation may be requested once; afterwards no new fetch is dequeued
while in-flight requests are allowed to finish. -/
inductive PoolStep (size : Nat) : PoolState → PoolState → Prop
  | dequeue (d : Nat) (rest : List Nat) (s : PoolState) :
      s.cancelled = false → s.pending = d :: rest → s.inFlight.length < size →
      PoolStep size s
        ⟨rest, s.inFlight ++ [d], s.served, s.fetchCount + 1, s.cancelled⟩
  | complete (d : Nat) (l1 l2 : List Nat) (s : PoolState) :
      s.inFlight = l1 ++ d :: l2 →
      PoolStep size s
        ⟨s.pending, l1 ++ l2, s.served ++ [d], s.fetchCount, s.cancelled⟩
  | cancel (s : PoolState) :
      s.cancelled = false →
      PoolStep size s ⟨s.pending, s.inFlight, s.served, s.fetchCount, true⟩

/-- Reflexive-transitive closure of the pool's step relation: a possible
execution fragment of the pool. -/
inductive PoolSteps (size : Nat) : PoolState → PoolState → Prop
  | refl (s : PoolState) : PoolSteps size s s
  | head {s t u : PoolState} :
      PoolStep size s t → PoolSteps size t u → PoolSteps size s u

/-- Pool state right after `submit` has enqueued the descriptors `ds`. -/
def initPool (ds : List Nat) : PoolState :=
  ⟨ds, [], [], 0, false⟩

/-- Modelled from the spec: the event the pool signals once drained —
completion of all submitted work, or cancellation. -/
inductive PoolEvent
  | completedAll
  | cancelled
deriving DecidableEq, Repr

/-- Terminal event reported by a drained pool. -/
def poolEvent (s : PoolState) : PoolEvent :=
  if s.cancelled then PoolEvent.cancelled else PoolEvent.completedAll

theorem poolStep_count (size : Nat) {s t : PoolState}
    (h : PoolStep size s t) (d : Nat) :
    t.pending.count d + t.inFlight.count d + t.served.count d =
      s.pending.count d + s.inFlight.count d + s.served.count d := by
  cases h with
  | dequeue d0 rest s hc hp hl =>
    simp only [hp, List.count_append, List.count_cons, List.count_nil]
    omega
  | complete d0 l1 l2 s hin =>
    simp only [hin, List.count_append, List.count_cons, List.count_nil]
    omega
  | cancel s hc => rfl

theorem poolStep_len (size : Nat) {s t : PoolState} (h : PoolStep size s t) :
    t.pending.length + t.inFlight.length + t.served.length =
      s.pending.length + s.inFlight.length + s.served.length := by
  cases h with
  | dequeue d0 rest s hc hp hl =>
    simp only [hp, List.length_append, List.length_cons, List.length_nil]
    omega
  | complete d0 l1 l2 s hin =>
    simp only [hin, List.length_append, List.length_cons, List.length_nil]
    omega
  | cancel s hc => rfl

theorem poolSteps_count (size : Nat) {s t : PoolState}
    (h : PoolSteps size s t) (d : Nat) :
    t.pending.count d + t.inFlight.count d + t.served.count d =
      s.pending.count d + s.inFlight.count d + s.served.count d := by
  induction h with
  | refl s => rfl
  | head hstep _ ih => exact ih.trans (poolStep_count _ hstep d)

theorem poolSteps_len (size : Nat) {s t : PoolState} (h : PoolSteps size s t) :
    t.pending.length + t.inFlight.length + t.served.length =
      s.pending.length + s.inFlight.length + s.served.length := by
  induction h with
  | refl s => rfl
  | head hstep _ ih => exact ih.trans (poolStep_len _ hstep)

theorem pool_drain (size : Nat) (hsize : 0 < size) :
    ∀ (ds served : List Nat) (fc : Nat),
      PoolSteps size ⟨ds, [], served, fc, false⟩
        ⟨[], [], served ++ ds, fc + ds.length, false⟩ := by
  intro ds
  induction ds with
  | nil =>
    intro served fc
    simpa using PoolSteps.refl (⟨[], [], served, fc, false⟩ : PoolState)
  | cons d rest ih =>
    intro served fc
    have step1 : PoolStep size ⟨d :: rest, [], served, fc, false⟩
        ⟨rest, [d], served, fc + 1, false⟩ :=
      PoolStep.dequeue d rest ⟨d :: rest, [], served, fc, false⟩ rfl rfl
        (by simpa using hsize)
    have step2 : PoolStep size ⟨rest, [d], served, fc + 1, false⟩
        ⟨rest, [], served ++ [d], fc + 1, false⟩ :=
      PoolStep.complete d [] [] ⟨rest, [d], served, fc + 1, false⟩ rfl
    have h3 := ih (served ++ [d]) (fc + 1)
    have e1 : (served ++ [d]) ++ rest = served ++ d :: rest := by simp
    have e2 : fc + 1 + rest.length = fc + (d :: rest).length := by
      simp only [List.length_cons]
      omega
    rw [e1, e2] at h3
    exact PoolSteps.head step1 (PoolSteps.head step2 h3)

/-! ## Claim C3 -/

/-- C3: for every list of submitted descriptors, any execution of the pool
that drains both queues without cancellation has produced exactly one
outcome per submitted descriptor — `k` outcomes for `k` submissions, and no
descriptor served more often than it was submitted; moreover such a
completed execution exists (the pool eventually produces them). -/
theorem pool_exactly_k_outcomes (size : Nat) (ds : List Nat)
    (hsize : 0 < size) :
    (∀ t, PoolSteps size (initPool ds) t → t.pending = [] → t.inFlight = [] →
      t.cancelled = false →
      t.served.length = ds.length ∧ ∀ d, t.served.count d = ds.count d) ∧
    (∃ t, PoolSteps size (initPool ds) t ∧ t.pending = [] ∧ t.inFlight = [] ∧
      t.cancelled = false ∧ t.served = ds) := by
  constructor
  · intro t ht hp hf _
    have hlen := poolSteps_len size ht
    have hcnt := poolSteps_count size ht
    rw [hp, hf] at hlen
    simp only [initPool, List.length_nil, List.count_nil] at hlen hcnt
    constructor
    · omega
    · intro d
      have := hcnt d
      rw [hp, hf] at this
      simp only [List.count_nil] at this
      omega
  · exact ⟨⟨[], [], [] ++ ds, 0 + ds.length, false⟩,
      pool_drain size hsize ds [] 0, rfl, rfl, rfl, rfl⟩

/-- Witness for C3: a pool of size 1 over two submitted descriptors; the
theorem applies and yields both the counting law and a completed
execution. -/
theorem pool_exactly_k_outcomes_witness :
    0 < 1 ∧
    ((∀ t, PoolSteps 1 (initPool [4, 5]) t → t.pending = [] →
        t.inFlight = [] → t.cancelled = false →
        t.served.length = [4, 5].length ∧
        ∀ d, t.served.count d = [4, 5].count d) ∧
      (∃ t, PoolSteps 1 (initPool [4, 5]) t ∧ t.pending = [] ∧
        t.inFlight = [] ∧ t.cancelled = false ∧ t.served = [4, 5])) :=
  ⟨by decide, pool_exactly_k_outcomes 1 [4, 5] (by decide)⟩

theorem poolStep_cancelled (size : Nat) {s t : PoolState}
    (hs : s.cancelled = true) (h : PoolStep size s t) :
    t.cancelled = true ∧ t.pending = s.pending ∧
    t.fetchCount = s.fetchCount ∧
    t.served.length + t.inFlight.length =
      s.served.length + s.inFlight.length := by
  cases h with
  | dequeue d0 rest s hc hp hl => rw [hs] at hc; cases hc
  | complete d0 l1 l2 s hin =>
    refine ⟨hs, rfl, rfl, ?_⟩
    simp only [hin, List.length_append, List.length_cons, List.length_nil]
    omega
  | cancel s hc => rw [hs] at hc; cases hc

theorem poolSteps_cancelled (size : Nat) :
    ∀ {s t : PoolState}, PoolSteps size s t → s.cancelled = true →
      t.cancelled = true ∧ t.pending = s.pending ∧
      t.fetchCount = s.fetchCount ∧
      t.served.length + t.inFlight.length =
        s.served.length + s.inFlight.length := by
  intro s t h
  induction h with
  | refl s => intro hs; exact ⟨hs, rfl, rfl, rfl⟩
  | head hstep _ ih =>
    intro hs
    obtain ⟨h1, h2, h3, h4⟩ := poolStep_cancelled size hs hstep
    obtain ⟨g1, g2, g3, g4⟩ := ih h1
    exact ⟨g1, g2.trans h2, g3.trans h3, by omega⟩

theorem pool_cancel_drain (size : Nat) :
    ∀ (fl pending served : List Nat) (fc : Nat),
      PoolSteps size ⟨pending, fl, served, fc, true⟩
        ⟨pending, [], served ++ fl, fc, true⟩ := by
  intro fl
  induction fl with
  | nil =>
    intro pending served fc
    simpa using PoolSteps.refl (⟨pending, [], served, fc, true⟩ : PoolState)
  | cons d rest ih =>
    intro pending served fc
    have step1 : PoolStep size ⟨pending, d :: rest, served, fc, true⟩
        ⟨pending, rest, served ++ [d], fc, true⟩ :=
      PoolStep.complete d [] rest ⟨pending, d :: rest, served, fc, true⟩ rfl
    have h3 := ih pending (served ++ [d]) fc
    have e1 : (served ++ [d]) ++ rest = served ++ d :: rest := by simp
    rw [e1] at h3
    exact PoolSteps.head step1 h3

/-! ## Claim C7 -/

/-- C7: from any pool state in which cancellation has been issued, no
execution ever issues another network call (the fetch count can never
increase again), and the pool reaches a drained state reporting the
Cancelled event by merely letting the requests already in flight finish —
within one in-flight-request duration, with the pending queue never
touched again. -/
theorem cancellation_stops_network (size : Nat) (s : PoolState)
    (hc : s.cancelled = true) :
    (∀ t, PoolSteps size s t → t.fetchCount = s.fetchCount) ∧
    (∃ t, PoolSteps size s t ∧ t.inFlight = [] ∧ t.pending = s.pending ∧
      t.served = s.served ++ s.inFlight ∧ t.fetchCount = s.fetchCount ∧
      poolEvent t = PoolEvent.cancelled) := by
  constructor
  · intro t ht
    exact (poolSteps_cancelled size ht hc).2.2.1
  · obtain ⟨p, fl, sv, fc, c⟩ := s
    simp only at hc
    subst hc
    exact ⟨⟨p, [], sv ++ fl, fc, true⟩, pool_cancel_drain size fl p sv fc,
      rfl, rfl, rfl, rfl, rfl⟩

/-- Witness for C7: a cancelled pool with one in-flight and one pending
descriptor; the theorem applies to it. -/
theorem cancellation_stops_network_witness :
    (⟨[9], [7], [], 2, true⟩ : PoolState).cancelled = true ∧
    ((∀ t, PoolSteps 3 ⟨[9], [7], [], 2, true⟩ t →
        t.fetchCount = (⟨[9], [7], [], 2, true⟩ : PoolState).fetchCount) ∧
      (∃ t, PoolSteps 3 ⟨[9], [7], [], 2, true⟩ t ∧ t.inFlight = [] ∧
        t.pending = (⟨[9], [7], [], 2, true⟩ : PoolState).pending ∧
        t.served = (⟨[9], [7], [], 2, true⟩ : PoolState).served ++
          (⟨[9], [7], [], 2, true⟩ : PoolState).inFlight ∧
        t.fetchCount = (⟨[9], [7], [], 2, true⟩ : PoolState).fetchCount ∧
        poolEvent t = PoolEvent.cancelled)) :=
  ⟨rfl, cancellation_stops_network 3 ⟨[9], [7], [], 2, true⟩ rfl⟩

end SpotifyReleaseList
